import Mathlib

/-!
Shallow embedding of the akita-cli pairing-and-shipping pipeline:
- `trace/backend_collector.go`: `BackendCollector`, `Process`, `queueUpload`,
  `flushPairCache`, `Close`, `uploadWitnesses`, `toReport` and the constants;
- the HAR replay adapter `parseFromHAR` (src/unnamed/part_000);
- the REST client error mapping `HTTPError` / `sendRequest` (src/unnamed/part_002).

External collaborators that live outside the provided sources
(`batcher.InMemory`, `learn.MergeWitness`, `obfuscate`, `pbhash.HashProto`,
`sampled_err.Errors`) are modelled from the spec, each marked in its doc
comment.  Times are modelled as `Int` (seconds); the Go zero `time.Time` is 0.
Network addresses are modelled as `Nat`.
-/

/-- A witness (exchange record): an optional request side and an optional
response side, each an abstract payload.  Mirrors the `pb.Witness` proto as
far as the claims need: a one-sided fragment has exactly one side set, and a
merged exchange has both. -/
structure Witness where
  req : Option Nat
  resp : Option Nat
deriving DecidableEq, Repr

/-- A one-sided partial witness as produced by `learn.ParseHTTP`: a pairing
key plus the one-sided exchange record. -/
structure PartialWitness where
  PairKey : Nat
  witness : Witness
deriving DecidableEq, Repr

/-- Modelled from the spec: `learn.MergeWitness(dst, src)` (external to the
provided sources) merges the incoming fragment `src` into the cached record
`dst`, field-wise and additively: fields already known are not overwritten by
absence, and conflicting known fields favor the most recently arrived value
(`src`). -/
def MergeWitness (dst src : Witness) : Witness :=
  { req := match src.req with
      | some r => some r
      | none => dst.req
    resp := match src.resp with
      | some r => some r
      | none => dst.resp }

/-- Modelled from the spec: `obfuscate` (external to the provided sources)
replaces concrete values with shape-preserving placeholders: field presence is
preserved, literal content is replaced. -/
def obfuscate (w : Witness) : Witness :=
  { req := w.req.map fun _ => 0
    resp := w.resp.map fun _ => 0 }

/-- `witnessWithInfo` from backend_collector.go: a witness together with the
addressing of its first-arrived side, the observation time and the pair key.
Ports are 16-bit (`uint16` in Go). -/
structure witnessWithInfo where
  srcIP : Nat
  srcPort : Nat
  dstIP : Nat
  dstPort : Nat
  observationTime : Int
  id : Nat
  witness : Witness
deriving DecidableEq, Repr

/-- An Akita transform plugin: `Name()` plus `Transform(method) -> error`.
In Go `Transform` mutates the witness in place and may return an error; we
model it as a function returning either the transformed witness or an error
message. -/
structure AkitaPlugin where
  name : String
  transform : Witness → Except String Witness

/-- Run the plugin list in registration order on a witness, as the loop in
`queueUpload` does: the first plugin to return an error stops the chain, and
its name and error are reported. -/
def runPlugins : List AkitaPlugin → Witness → Except (String × String) Witness
  | [], w => .ok w
  | p :: ps, w =>
    match p.transform w with
    | .error e => .error (p.name, e)
    | .ok w2 => runPlugins ps w2

/-- We stop trying to pair partial witnesses older than pairCacheExpiration
(one minute). -/
def pairCacheExpiration : Int := 60

/-- How often we clean out stale partial witnesses from pairCache
(thirty seconds). -/
def pairCacheCleanupInterval : Int := 30

/-- Max size per upload batch. -/
def uploadBatchMaxSize : Nat := 10

/-- How often to flush the upload batch (thirty seconds). -/
def uploadBatchFlushDuration : Int := 30

/-- Modelled from the spec: `batcher.InMemory` (external akita-libs library).
A bounded queue with a maximum count and a maximum residency duration; `Add`
appends and flushes immediately when the queue length reaches the maximum;
a periodic check flushes when the oldest item's residency exceeds the
duration; `Close` flushes the remainder.  `flushed` records each invocation
of the flush callback (oldest first); each queue item carries its add time. -/
structure InMemory where
  maxBatchSize : Nat
  flushDuration : Int
  queue : List (Int × witnessWithInfo)
  flushed : List (List witnessWithInfo)
  closed : Bool
deriving DecidableEq, Repr

/-- Internal flush: hand the queued items to the flush callback and empty the
queue; flushing an empty queue is a no-op. -/
def InMemory.flushImpl (b : InMemory) : InMemory :=
  if b.queue.isEmpty then b
  else { b with queue := [], flushed := b.flushed ++ [b.queue.map Prod.snd] }

/-- `Add`: append to the queue; when the queue length reaches the maximum
batch size, trigger an immediate flush. -/
def InMemory.Add (b : InMemory) (now : Int) (w : witnessWithInfo) : InMemory :=
  let b2 : InMemory := { b with queue := b.queue ++ [(now, w)] }
  if b2.queue.length ≥ b2.maxBatchSize then b2.flushImpl else b2

/-- Periodic check: flush when the oldest queued item has resided longer than
the flush duration. -/
def InMemory.tick (b : InMemory) (now : Int) : InMemory :=
  match b.queue with
  | [] => b
  | (t0, _) :: _ => if now - t0 > b.flushDuration then b.flushImpl else b

/-- `Close`: force a final flush of whatever remains. -/
def InMemory.Close (b : InMemory) : InMemory :=
  { b.flushImpl with closed := true }

/-- The full, ordered history of items handed to `Add`: every flushed batch in
order, followed by what is still queued.  Flushing moves items from `queue` to
`flushed` and so preserves this list. -/
def InMemory.added (b : InMemory) : List witnessWithInfo :=
  b.flushed.flatten ++ b.queue.map Prod.snd

/-- The content of one HTTP message as seen by `Process`: the outcome of
`learn.ParseHTTP` on that message (external parser, so its result is carried
by the input). -/
inductive TrafficContent where
  | httpRequest (parsed : Except String PartialWitness)
  | httpResponse (parsed : Except String PartialWitness)
  | other
deriving Repr

/-- `akinet.ParsedNetworkTraffic`: addressing, observation time and content
of one captured frame. -/
structure ParsedNetworkTraffic where
  SrcIP : Nat
  SrcPort : Nat
  DstIP : Nat
  DstPort : Nat
  ObservationTime : Int
  content : TrafficContent
deriving Repr

/-- Go map lookup on the association-list model of `pairCache`. -/
def cacheLookup : List (Nat × witnessWithInfo) → Nat → Option witnessWithInfo
  | [], _ => none
  | (k, e) :: rest, key => if k = key then some e else cacheLookup rest key

/-- Go map insert (the key is absent when the collector inserts). -/
def cacheInsert (m : List (Nat × witnessWithInfo)) (k : Nat) (e : witnessWithInfo) :
    List (Nat × witnessWithInfo) :=
  m ++ [(k, e)]

/-- Go map delete. -/
def cacheErase (m : List (Nat × witnessWithInfo)) (k : Nat) :
    List (Nat × witnessWithInfo) :=
  m.filter fun ke => ke.1 ≠ k

/-- `BackendCollector`: pair cache of un-paired partial witnesses keyed by
pair key, the upload batch, the time of the last `Process` call, and the
plugin list.  (The service/session identifiers and the REST client do not
affect the collector logic and are omitted.) -/
structure BackendCollector where
  pairCache : List (Nat × witnessWithInfo)
  uploadBatch : InMemory
  lastProcessTime : Int
  plugins : List AkitaPlugin

/-- `NewBackendCollector`: empty pair cache, batcher configured with
`uploadBatchMaxSize` and `uploadBatchFlushDuration`, zero last-process time. -/
def NewBackendCollector (plugins : List AkitaPlugin) : BackendCollector :=
  { pairCache := []
    uploadBatch :=
      { maxBatchSize := uploadBatchMaxSize
        flushDuration := uploadBatchFlushDuration
        queue := []
        flushed := []
        closed := false }
    lastProcessTime := 0
    plugins := plugins }

/-- `queueUpload`: run every plugin in order; if any returns an error the
witness is skipped (not added to the batch); otherwise obfuscate the witness
and add it to the upload batch. -/
def queueUpload (c : BackendCollector) (now : Int) (w : witnessWithInfo) :
    BackendCollector :=
  match runPlugins c.plugins w.witness with
  | .error _ => c
  | .ok w2 =>
    { c with uploadBatch := c.uploadBatch.Add now { w with witness := obfuscate w2 } }

/-- One step of the `flushPairCache` loop body: if the entry is older than the
cutoff, queue it for upload and delete it from the cache. -/
def flushStep (now cutoffTime : Int) (acc : BackendCollector)
    (ke : Nat × witnessWithInfo) : BackendCollector :=
  if ke.2.observationTime < cutoffTime then
    let acc2 := queueUpload acc now ke.2
    { acc2 with pairCache := cacheErase acc2.pairCache ke.1 }
  else acc

/-- `flushPairCache`: iterate over the pair cache and emit-and-delete every
entry observed before the cutoff time. -/
def flushPairCache (c : BackendCollector) (now cutoffTime : Int) :
    BackendCollector :=
  c.pairCache.foldl (flushStep now cutoffTime) c

/-- The main body of `Process` (before the deferred lazy sweep): dispatch on
the content, skip parse failures and non-HTTP traffic, and either complete a
cached pair or insert a new cache entry. -/
def processBody (c : BackendCollector) (now : Int) (t : ParsedNetworkTraffic) :
    BackendCollector :=
  match t.content with
  | .other => c
  | .httpRequest parsed => processParsed c now t true parsed
  | .httpResponse parsed => processParsed c now t false parsed
where
  /-- Handle one parsed fragment: on parse failure skip; on a cache hit merge
  into the cached record, delete the entry, swap addressing when the new side
  is the request, and queue the completed exchange; on a miss insert a new
  cache entry recording this frame's addressing. -/
  processParsed (c : BackendCollector) (now : Int) (t : ParsedNetworkTraffic)
      (isRequest : Bool) (parsed : Except String PartialWitness) :
      BackendCollector :=
    match parsed with
    | .error _ => c
    | .ok pw =>
      match cacheLookup c.pairCache pw.PairKey with
      | some pair =>
        let merged := MergeWitness pair.witness pw.witness
        let c2 := { c with pairCache := cacheErase c.pairCache pw.PairKey }
        let pair2 :=
          if isRequest then
            { pair with
                witness := merged
                srcIP := pair.dstIP, dstIP := pair.srcIP
                srcPort := pair.dstPort, dstPort := pair.srcPort }
          else { pair with witness := merged }
        queueUpload c2 now pair2
      | none =>
        let entry : witnessWithInfo :=
          { srcIP := t.SrcIP
            srcPort := t.SrcPort % 65536
            dstIP := t.DstIP
            dstPort := t.DstPort % 65536
            observationTime := t.ObservationTime
            id := pw.PairKey
            witness := pw.witness }
        { c with pairCache := cacheInsert c.pairCache pw.PairKey entry }

/-- `Process`: run the body, then (the deferred function) lazily sweep the
pair cache when more than the cleanup interval has elapsed since the previous
call and the previous-call time is not the zero time, and finally record this
call's time. -/
def Process (c : BackendCollector) (now : Int) (t : ParsedNetworkTraffic) :
    BackendCollector :=
  let c1 := processBody c now t
  let c2 :=
    if c1.lastProcessTime ≠ 0 ∧ now - c1.lastProcessTime > pairCacheCleanupInterval
    then flushPairCache c1 now (now - pairCacheExpiration)
    else c1
  { c2 with lastProcessTime := now }

/-- `Close`: flush the whole pair cache with the current time as cutoff, then
close the upload batcher. -/
def BackendCollector.Close (c : BackendCollector) (now : Int) : BackendCollector :=
  let c2 := flushPairCache c now now
  { c2 with uploadBatch := c2.uploadBatch.Close }

/-- `kgxapi.WitnessReport`, the wire envelope assembled by `toReport`. -/
structure WitnessReport where
  Direction : Nat
  OriginAddr : Nat
  OriginPort : Nat
  DestinationAddr : Nat
  DestinationPort : Nat
  WitnessProto : List Nat
  ClientWitnessTime : Int
  Hash : Nat
  ID : Nat
deriving DecidableEq, Repr

/-- `witnessWithInfo.toReport`: hash the witness proto, marshal and encode it,
and assemble the report; a hash or marshal failure fails the conversion.  The
external `pbhash.HashProto` and `proto.Marshal` are passed as parameters. -/
def toReport (hashF : Witness → Except String Nat)
    (marshalF : Witness → Except String (List Nat)) (dir : Nat)
    (r : witnessWithInfo) : Except String WitnessReport :=
  match hashF r.witness with
  | .error e => .error e
  | .ok h =>
    match marshalF r.witness with
    | .error e => .error e
    | .ok b =>
      .ok { Direction := dir
            OriginAddr := r.srcIP
            OriginPort := r.srcPort
            DestinationAddr := r.dstIP
            DestinationPort := r.dstPort
            WitnessProto := b
            ClientWitnessTime := r.observationTime
            Hash := h
            ID := r.id }

/-- Modelled from the spec: `pbhash.HashProto` (external akita-libs library)
is a deterministic structural hash of the exchange content: identical content
always yields an identical hash, and any field change yields a different
hash. -/
def HashProto (w : Witness) : Nat :=
  Nat.pair (match w.req with | none => 0 | some n => n + 1)
           (match w.resp with | none => 0 | some n => n + 1)

/-- One call to `learnClient.ReportWitnesses`: the per-call deadline (seconds)
and the reports submitted. -/
structure SubmitCall where
  timeoutSeconds : Int
  reports : List WitnessReport
deriving DecidableEq, Repr

/-- `uploadWitnesses`: convert each batched item to a report, dropping (with a
warning) any item whose conversion fails, then submit the assembled reports in
a single call carrying a 30-second deadline.  A submission failure is logged
and the batch is discarded; the function performs exactly one submission and
retains nothing, which the returned one-element call list records. -/
def uploadWitnesses (toReportF : witnessWithInfo → Except String WitnessReport)
    (inItems : List witnessWithInfo) : List SubmitCall :=
  let reports := inItems.foldl
    (fun acc w =>
      match toReportF w with
      | .ok r => acc ++ [r]
      | .error _ => acc) []
  [{ timeoutSeconds := 30, reports := reports }]

/-- Modelled from the spec: `sampled_err.Errors` (external akita-libs library)
accumulates a bounded sample (the first `SampleCount`) of error messages plus
a total error count. -/
structure SampledErrors where
  SampleCount : Nat
  Samples : List String
  TotalCount : Nat
deriving DecidableEq, Repr

/-- Modelled from the spec: `Errors.Add` records one more error, keeping the
message only while fewer than `SampleCount` samples are held. -/
def SampledErrors.Add (errs : SampledErrors) (msg : String) : SampledErrors :=
  { errs with
      TotalCount := errs.TotalCount + 1
      Samples :=
        if errs.Samples.length < errs.SampleCount then errs.Samples ++ [msg]
        else errs.Samples }

/-- One entry of a custom HAR log: an optional request side and an optional
response side, each carrying the outcome of the external `FromHAR` conversion
(on success, the content handed to `Process`), plus the entry timestamp. -/
structure CustomHAREntry where
  request : Option (Except String TrafficContent)
  response : Option (Except String TrafficContent)
  startedDateTime : Int

/-- The body of the `parseFromHAR` loop for one entry: convert and feed the
request side (if present) and then the response side (if present); a failed
conversion marks the entry unsuccessful and records the error; the entry
counts as successful when all present sides converted. -/
def processHAREntry (now : Int) (st : BackendCollector × Nat × SampledErrors)
    (entry : CustomHAREntry) : BackendCollector × Nat × SampledErrors :=
  let col := st.1
  let r1 : BackendCollector × Bool × SampledErrors :=
    match entry.request with
    | none => (col, true, st.2.2)
    | some (.ok content) =>
      (Process col now
        { SrcIP := 0, SrcPort := 0, DstIP := 0, DstPort := 0
          ObservationTime := entry.startedDateTime, content := content },
       true, st.2.2)
    | some (.error e) => (col, false, st.2.2.Add e)
  let r2 : BackendCollector × Bool × SampledErrors :=
    match entry.response with
    | none => (r1.1, true, r1.2.2)
    | some (.ok content) =>
      (Process r1.1 now
        { SrcIP := 0, SrcPort := 0, DstIP := 0, DstPort := 0
          ObservationTime := entry.startedDateTime, content := content },
       true, r1.2.2)
    | some (.error e) => (r1.1, false, r1.2.2.Add e)
  (r2.1, st.2.1 + (if r1.2.1 && r2.2.1 then 1 else 0), r2.2.2)

/-- `parseFromHAR`: feed every entry of the archive, in order, through the
collector, tracking the count of fully successful entries and a sampled error
accumulator with sample bound 3; no entry ever aborts the archive.  Returns
(successful entries, errors, final collector). -/
def parseFromHAR (col : BackendCollector) (now : Int)
    (entries : List CustomHAREntry) : Nat × SampledErrors × BackendCollector :=
  let r := entries.foldl (processHAREntry now)
    (col, 0, { SampleCount := 3, Samples := [], TotalCount := 0 })
  (r.2.1, r.2.2, r.1)

/-- `rest.HTTPError`: error type for non-2xx HTTP responses. -/
structure HTTPError where
  StatusCode : Nat
  Body : String
deriving DecidableEq, Repr

/-- `HTTPError.Error()`: a 401 maps to a user-actionable invalid-credentials
message; any other status reports the code and the response body. -/
def HTTPError.Error (he : HTTPError) : String :=
  if he.StatusCode = 401 then
    "Invalid credentials, run \"login\" or use AKITA_API_KEY_SECRET environment variable"
  else
    "received status code " ++ toString he.StatusCode ++ ", body: " ++ he.Body

/-- The failure cases of `rest.sendRequest`. -/
inductive SendErr where
  | missingKeyID : SendErr
  | missingKeySecret : SendErr
  | transportErr (msg : String) : SendErr
  | httpErr (he : HTTPError) : SendErr
deriving DecidableEq, Repr

/-- The outcome the transport (`HTTPClient.Do`, with its own retry policy)
would produce if the request were performed: a transport failure or a status
code and body. -/
structure HTTPResponseModel where
  StatusCode : Nat
  Body : String
deriving DecidableEq, Repr

/-- `rest.sendRequest`: fail before performing the request when the API key ID
or secret is missing; otherwise perform the request and map the outcome: a
transport error is returned as-is, a non-2xx status becomes an `HTTPError`
carrying the status and body, and a 2xx returns the body.  The first
component records whether the request was performed at all. -/
def sendRequest (apiKeyID apiKeySecret : String)
    (doResult : Except String HTTPResponseModel) :
    Bool × Except SendErr String :=
  if apiKeyID = "" then (false, .error .missingKeyID)
  else if apiKeySecret = "" then (false, .error .missingKeySecret)
  else
    match doResult with
    | .error e => (true, .error (.transportErr e))
    | .ok resp =>
      if resp.StatusCode < 200 || resp.StatusCode > 299 then
        (true, .error (.httpErr { StatusCode := resp.StatusCode, Body := resp.Body }))
      else (true, .ok resp.Body)

/-- The plugin list transforms every witness successfully and leaves it
unchanged (in particular, the empty plugin list). -/
def pluginsId (ps : List AkitaPlugin) : Prop :=
  ∀ w, runPlugins ps w = .ok w

/-- The shape an exchange has when it reaches the upload batch: the witness
obfuscated, everything else kept. -/
def obfEntry (w : witnessWithInfo) : witnessWithInfo :=
  { w with witness := obfuscate w.witness }

lemma InMemory.flushImpl_added (b : InMemory) : b.flushImpl.added = b.added := by
  unfold InMemory.flushImpl InMemory.added
  by_cases h : b.queue.isEmpty
  · simp [h]
  · simp [h, List.isEmpty_iff.not.mp h]

lemma InMemory.add_added (b : InMemory) (now : Int) (w : witnessWithInfo) :
    (b.Add now w).added = b.added ++ [w] := by
  unfold InMemory.Add
  by_cases h : (b.queue ++ [(now, w)]).length ≥ b.maxBatchSize
  · simp only [h, if_pos, InMemory.flushImpl_added]
    simp [InMemory.added]
  · simp only [if_neg h]
    simp [InMemory.added]

lemma InMemory.flushImpl_closed (b : InMemory) : b.flushImpl.closed = b.closed := by
  unfold InMemory.flushImpl
  by_cases h : b.queue.isEmpty <;> simp [h]

lemma InMemory.add_closed (b : InMemory) (now : Int) (w : witnessWithInfo) :
    (b.Add now w).closed = b.closed := by
  simp only [InMemory.Add]
  split <;> simp [InMemory.flushImpl_closed]

/-- C3: the Batching Shipper of `BackendCollector` is configured with maximum
count 10 and flush duration 30 seconds; `Add` appends the exchange to the
queue and, when the queue length reaches the maximum count, flushes
immediately; below the maximum count nothing flushes on `Add`, and a queue
whose oldest item has resided longer than the time bound flushes on the
periodic check while a younger queue does not. -/
theorem batcher_size_and_time_triggers (ps : List AkitaPlugin) (b : InMemory)
    (now : Int) (w : witnessWithInfo) :
    ((NewBackendCollector ps).uploadBatch.maxBatchSize = 10 ∧
     (NewBackendCollector ps).uploadBatch.flushDuration = 30) ∧
    (b.Add now w).added = b.added ++ [w] ∧
    (b.queue.length + 1 ≥ b.maxBatchSize →
      (b.Add now w).queue = [] ∧
      (b.Add now w).flushed = b.flushed ++ [b.queue.map Prod.snd ++ [w]]) ∧
    (b.queue.length + 1 < b.maxBatchSize →
      (b.Add now w).queue = b.queue ++ [(now, w)] ∧ (b.Add now w).flushed = b.flushed) ∧
    (∀ t0 item rest, b.queue = (t0, item) :: rest →
      (now - t0 > b.flushDuration →
        (b.tick now).queue = [] ∧ (b.tick now).flushed = b.flushed ++ [b.queue.map Prod.snd]) ∧
      (now - t0 ≤ b.flushDuration → b.tick now = b)) := by
  refine ⟨⟨rfl, rfl⟩, InMemory.add_added b now w, ?_, ?_, ?_⟩
  · intro h
    have hc : b.maxBatchSize ≤ b.queue.length + 1 := h
    simp only [InMemory.Add, InMemory.flushImpl]
    simp [hc]
  · intro h
    have hc : ¬ b.maxBatchSize ≤ b.queue.length + 1 := by omega
    simp only [InMemory.Add]
    simp [hc]
  · intro t0 item rest hq
    constructor
    · intro hgt
      have hne : b.queue ≠ [] := by rw [hq]; simp
      simp only [InMemory.tick, hq, InMemory.flushImpl]
      simp [hgt, ← hq, hne]
    · intro hle
      have : ¬ now - t0 > b.flushDuration := by omega
      simp [InMemory.tick, hq, this]

/-- One concrete run of the batching triggers, discharging the hypotheses of
the size/time trigger theorem: a 2-slot batcher flushes on the second `Add`
and stays put on the first; a 1-element queue past its residency bound
flushes on the periodic check. -/
theorem batcher_size_and_time_triggers_witness :
    (({ maxBatchSize := 2, flushDuration := 30,
        queue := [(0, { srcIP := 0, srcPort := 0, dstIP := 0, dstPort := 0,
                        observationTime := 0, id := 0,
                        witness := { req := none, resp := none } })],
        flushed := [], closed := false } : InMemory).Add 1
          { srcIP := 1, srcPort := 1, dstIP := 1, dstPort := 1,
            observationTime := 1, id := 1,
            witness := { req := none, resp := none } }).queue = [] := by
  have h := (batcher_size_and_time_triggers []
    { maxBatchSize := 2, flushDuration := 30,
      queue := [(0, { srcIP := 0, srcPort := 0, dstIP := 0, dstPort := 0,
                      observationTime := 0, id := 0,
                      witness := { req := none, resp := none } })],
      flushed := [], closed := false } 1
    { srcIP := 1, srcPort := 1, dstIP := 1, dstPort := 1,
      observationTime := 1, id := 1,
      witness := { req := none, resp := none } }).2.2.1
  exact (h (by decide)).1

lemma uploadReports_eq (f : witnessWithInfo → Except String WitnessReport) :
    ∀ (xs : List witnessWithInfo) (acc : List WitnessReport),
      xs.foldl (fun acc w => match f w with | .ok r => acc ++ [r] | .error _ => acc) acc
        = acc ++ xs.filterMap (fun x => (f x).toOption) := by
  intro xs
  induction xs with
  | nil => intro acc; simp
  | cons x xs ih =>
    intro acc
    cases hfx : f x with
    | ok r => simp [List.foldl_cons, hfx, ih, Except.toOption]
    | error e => simp [List.foldl_cons, hfx, ih, Except.toOption]

/-- C4: during a batch flush, an item whose conversion to a report fails is
dropped while the rest of the batch still ships; the reports are submitted in
exactly one call (the batch is never resubmitted at this layer) and that call
carries a 30-second deadline. -/
theorem uploadWitnesses_partial_batch
    (f : witnessWithInfo → Except String WitnessReport)
    (xs1 xs2 : List witnessWithInfo) (w : witnessWithInfo) (e : String)
    (hfail : f w = .error e) :
    uploadWitnesses f (xs1 ++ w :: xs2) = uploadWitnesses f (xs1 ++ xs2) ∧
    (∀ xs, uploadWitnesses f xs =
      [{ timeoutSeconds := 30, reports := xs.filterMap fun x => (f x).toOption }]) ∧
    (∀ xs, (uploadWitnesses f xs).length = 1 ∧
      ∀ call ∈ uploadWitnesses f xs, call.timeoutSeconds = 30) := by
  have hform : ∀ xs, uploadWitnesses f xs =
      [{ timeoutSeconds := 30, reports := xs.filterMap fun x => (f x).toOption }] := by
    intro xs
    simp only [uploadWitnesses]
    rw [uploadReports_eq]
    simp
  refine ⟨?_, hform, ?_⟩
  · rw [hform, hform]
    simp [hfail, Except.toOption]
  · intro xs
    rw [hform]
    simp

/-- One concrete flush discharging the failure hypothesis: the middle item of
a three-item batch fails to convert and only that item is missing from the
shipped reports. -/
theorem uploadWitnesses_partial_batch_witness :
    uploadWitnesses
      (fun x => if x.id = 1 then .error "boom"
        else toReport (fun w => .ok (HashProto w)) (fun _ => .ok []) 0 x)
      ([{ srcIP := 0, srcPort := 0, dstIP := 0, dstPort := 0, observationTime := 0,
          id := 0, witness := { req := none, resp := none } }] ++
        { srcIP := 1, srcPort := 1, dstIP := 1, dstPort := 1, observationTime := 1,
          id := 1, witness := { req := none, resp := none } } ::
        [{ srcIP := 2, srcPort := 2, dstIP := 2, dstPort := 2, observationTime := 2,
           id := 2, witness := { req := none, resp := none } }]) =
    uploadWitnesses
      (fun x => if x.id = 1 then .error "boom"
        else toReport (fun w => .ok (HashProto w)) (fun _ => .ok []) 0 x)
      ([{ srcIP := 0, srcPort := 0, dstIP := 0, dstPort := 0, observationTime := 0,
          id := 0, witness := { req := none, resp := none } }] ++
        [{ srcIP := 2, srcPort := 2, dstIP := 2, dstPort := 2, observationTime := 2,
           id := 2, witness := { req := none, resp := none } }]) :=
  (uploadWitnesses_partial_batch _ _ _
    { srcIP := 1, srcPort := 1, dstIP := 1, dstPort := 1, observationTime := 1,
      id := 1, witness := { req := none, resp := none } } "boom" rfl).1

lemma sideEnc_inj (o1 o2 : Option Nat)
    (h : (match o1 with | none => 0 | some n => n + 1) =
         (match o2 with | none => 0 | some n => n + 1)) : o1 = o2 := by
  cases o1 <;> cases o2 <;> simp_all

/-- C7: the content hash placed in a wire envelope is deterministic and
collision-sensitive to content: identical witness content always yields an
identical hash, any field change yields a different hash, and `toReport`
places exactly the hash of the witness's content into the envelope. -/
theorem hashProto_deterministic_and_content_sensitive :
    (∀ w1 w2 : Witness, w1 = w2 → HashProto w1 = HashProto w2) ∧
    (∀ w1 w2 : Witness, w1 ≠ w2 → HashProto w1 ≠ HashProto w2) ∧
    (∀ (marshalF : Witness → Except String (List Nat)) (dir : Nat)
       (r : witnessWithInfo) (rep : WitnessReport),
      toReport (fun w => .ok (HashProto w)) marshalF dir r = .ok rep →
      rep.Hash = HashProto r.witness) := by
  have hinj : ∀ w1 w2 : Witness, HashProto w1 = HashProto w2 → w1 = w2 := by
    intro w1 w2 h
    unfold HashProto at h
    have h2 := Nat.pair_eq_pair.mp h
    cases w1 with
    | mk r1 s1 =>
      cases w2 with
      | mk r2 s2 =>
        have hr := sideEnc_inj r1 r2 h2.1
        have hs := sideEnc_inj s1 s2 h2.2
        simp_all
  refine ⟨fun w1 w2 h => by rw [h], fun w1 w2 hne hh => hne (hinj w1 w2 hh), ?_⟩
  intro marshalF dir r rep h
  cases hm : marshalF r.witness with
  | error e => simp [toReport, hm] at h
  | ok b =>
    simp only [toReport, hm] at h
    cases h
    rfl

/-- Two witnesses differing in a single field hash differently, by the
content-sensitivity theorem at a concrete input. -/
theorem hashProto_content_sensitive_witness :
    HashProto { req := some 1, resp := none } ≠ HashProto { req := some 2, resp := none } :=
  hashProto_deterministic_and_content_sensitive.2.1
    { req := some 1, resp := none } { req := some 2, resp := none } (by decide)

/-- C8: remote submission maps HTTP outcomes to a structured error: a 401
status yields the user-actionable invalid-credentials message, any other
non-2xx status yields an `HTTPError` carrying the response body, and a
missing API key ID or secret fails before the request is ever performed. -/
theorem sendRequest_error_mapping :
    (∀ keyID keySecret body : String, keyID ≠ "" → keySecret ≠ "" →
      sendRequest keyID keySecret (.ok { StatusCode := 401, Body := body }) =
        (true, .error (.httpErr { StatusCode := 401, Body := body })) ∧
      HTTPError.Error { StatusCode := 401, Body := body } =
        "Invalid credentials, run \"login\" or use AKITA_API_KEY_SECRET environment variable") ∧
    (∀ (keyID keySecret body : String) (st : Nat), keyID ≠ "" → keySecret ≠ "" →
      st < 200 ∨ st > 299 →
      sendRequest keyID keySecret (.ok { StatusCode := st, Body := body }) =
        (true, .error (.httpErr { StatusCode := st, Body := body })) ∧
      (st ≠ 401 → HTTPError.Error { StatusCode := st, Body := body } =
        "received status code " ++ toString st ++ ", body: " ++ body)) ∧
    (∀ (keySecret : String) (r : Except String HTTPResponseModel),
      sendRequest "" keySecret r = (false, .error .missingKeyID)) ∧
    (∀ (keyID : String) (r : Except String HTTPResponseModel), keyID ≠ "" →
      sendRequest keyID "" r = (false, .error .missingKeySecret)) := by
  refine ⟨?_, ?_, ?_, ?_⟩
  · intro keyID keySecret body h1 h2
    constructor
    · simp [sendRequest, h1, h2]
    · simp [HTTPError.Error]
  · intro keyID keySecret body st h1 h2 hst
    constructor
    · have : (st < 200 || st > 299) = true := by
        rcases hst with h | h <;> simp [h]
      simp [sendRequest, h1, h2, this]
    · intro hne
      simp [HTTPError.Error, hne]
  · intro keySecret r
    simp [sendRequest]
  · intro keyID r h
    simp [sendRequest, h]

/-- One concrete run of the error mapping, discharging its hypotheses: a 401
response with non-empty credentials maps to the invalid-credentials error. -/
theorem sendRequest_error_mapping_witness :
    sendRequest "id" "secret" (.ok { StatusCode := 401, Body := "denied" }) =
      (true, .error (.httpErr { StatusCode := 401, Body := "denied" })) :=
  ((sendRequest_error_mapping.1 "id" "secret" "denied"
    (by decide) (by decide)).1)

lemma runPlugins_append (ps1 ps2 : List AkitaPlugin) (w : Witness) :
    runPlugins (ps1 ++ ps2) w =
      match runPlugins ps1 w with
      | .error e => .error e
      | .ok w1 => runPlugins ps2 w1 := by
  induction ps1 generalizing w with
  | nil => simp [runPlugins]
  | cons p ps ih =>
    simp only [List.cons_append, runPlugins]
    cases p.transform w with
    | error e => simp
    | ok w2 => simp [ih]

/-- C5: `queueUpload` invokes the registered plugins in registration order;
the first plugin to fail aborts shipment of that exchange only — the error is
reported under that plugin's name, the exchange is not added to the upload
batch and the collector state is left exactly unchanged (so other exchanges
are unaffected) — and obfuscation is applied to the transformed witness only
after every plugin has succeeded. -/
theorem queueUpload_transform_chain (c : BackendCollector) (now : Int)
    (w : witnessWithInfo) :
    (∀ (ps1 : List AkitaPlugin) (p : AkitaPlugin) (ps2 : List AkitaPlugin)
       (w1 : Witness) (e : String),
      c.plugins = ps1 ++ p :: ps2 →
      runPlugins ps1 w.witness = .ok w1 →
      p.transform w1 = .error e →
      runPlugins c.plugins w.witness = .error (p.name, e) ∧
      queueUpload c now w = c) ∧
    (∀ w2 : Witness, runPlugins c.plugins w.witness = .ok w2 →
      queueUpload c now w =
        { c with uploadBatch :=
            c.uploadBatch.Add now { w with witness := obfuscate w2 } }) := by
  constructor
  · intro ps1 p ps2 w1 e hps hok hfail
    have herr : runPlugins c.plugins w.witness = .error (p.name, e) := by
      rw [hps, runPlugins_append, hok]
      simp [runPlugins, hfail]
    exact ⟨herr, by simp [queueUpload, herr]⟩
  · intro w2 hok
    simp [queueUpload, hok]

/-- The collector used in the transform-chain witness: a single plugin that
vetoes every exchange. -/
def vetoCollector : BackendCollector :=
  { pairCache := []
    uploadBatch :=
      { maxBatchSize := 10, flushDuration := 30, queue := [], flushed := [],
        closed := false }
    lastProcessTime := 0
    plugins := [{ name := "veto", transform := fun _ => .error "boom" }] }

/-- The exchange fed to the transform-chain witness. -/
def vetoItem : witnessWithInfo :=
  { srcIP := 0, srcPort := 0, dstIP := 0, dstPort := 0, observationTime := 0,
    id := 0, witness := { req := none, resp := none } }

/-- A concrete vetoed exchange, discharging the hypotheses of the transform
chain theorem: one failing plugin leaves the collector unchanged. -/
theorem queueUpload_transform_chain_witness :
    queueUpload vetoCollector 0 vetoItem = vetoCollector :=
  ((queueUpload_transform_chain vetoCollector 0 vetoItem).1 []
    { name := "veto", transform := fun _ => .error "boom" } []
    vetoItem.witness "boom" rfl rfl rfl).2

lemma queueUpload_pairCache (c : BackendCollector) (now : Int) (w : witnessWithInfo) :
    (queueUpload c now w).pairCache = c.pairCache := by
  unfold queueUpload
  cases runPlugins c.plugins w.witness <;> rfl

lemma queueUpload_plugins (c : BackendCollector) (now : Int) (w : witnessWithInfo) :
    (queueUpload c now w).plugins = c.plugins := by
  unfold queueUpload
  cases runPlugins c.plugins w.witness <;> rfl

lemma queueUpload_lastProcessTime (c : BackendCollector) (now : Int) (w : witnessWithInfo) :
    (queueUpload c now w).lastProcessTime = c.lastProcessTime := by
  unfold queueUpload
  cases runPlugins c.plugins w.witness <;> rfl

lemma queueUpload_closed (c : BackendCollector) (now : Int) (w : witnessWithInfo) :
    (queueUpload c now w).uploadBatch.closed = c.uploadBatch.closed := by
  unfold queueUpload
  cases h : runPlugins c.plugins w.witness with
  | error e => rfl
  | ok w2 => simp [InMemory.add_closed]

lemma queueUpload_added_id (c : BackendCollector) (now : Int) (w : witnessWithInfo)
    (hid : pluginsId c.plugins) :
    (queueUpload c now w).uploadBatch.added = c.uploadBatch.added ++ [obfEntry w] := by
  unfold queueUpload
  rw [hid w.witness]
  simp [InMemory.add_added, obfEntry]

lemma flushStep_plugins (now cutoff : Int) (acc : BackendCollector)
    (ke : Nat × witnessWithInfo) :
    (flushStep now cutoff acc ke).plugins = acc.plugins := by
  unfold flushStep
  split
  · simp [queueUpload_plugins]
  · rfl

lemma flushStep_lastProcessTime (now cutoff : Int) (acc : BackendCollector)
    (ke : Nat × witnessWithInfo) :
    (flushStep now cutoff acc ke).lastProcessTime = acc.lastProcessTime := by
  unfold flushStep
  split
  · simp [queueUpload_lastProcessTime]
  · rfl

lemma flushStep_closed (now cutoff : Int) (acc : BackendCollector)
    (ke : Nat × witnessWithInfo) :
    (flushStep now cutoff acc ke).uploadBatch.closed = acc.uploadBatch.closed := by
  unfold flushStep
  split
  · simp [queueUpload_closed]
  · rfl

lemma flushStep_pairCache (now cutoff : Int) (acc : BackendCollector)
    (ke : Nat × witnessWithInfo) :
    (flushStep now cutoff acc ke).pairCache =
      if ke.2.observationTime < cutoff then cacheErase acc.pairCache ke.1
      else acc.pairCache := by
  unfold flushStep
  split
  · next h => simp [h, queueUpload_pairCache]
  · next h => simp [h]

lemma flushFold_struct (now cutoff : Int) (l : List (Nat × witnessWithInfo)) :
    ∀ acc : BackendCollector,
      ((l.foldl (flushStep now cutoff) acc).pairCache =
        ((l.filter fun ke => ke.2.observationTime < cutoff).map Prod.fst).foldl
          cacheErase acc.pairCache) ∧
      (l.foldl (flushStep now cutoff) acc).plugins = acc.plugins ∧
      (l.foldl (flushStep now cutoff) acc).lastProcessTime = acc.lastProcessTime ∧
      (l.foldl (flushStep now cutoff) acc).uploadBatch.closed = acc.uploadBatch.closed := by
  induction l with
  | nil => intro acc; simp
  | cons x l ih =>
    intro acc
    by_cases hp : x.2.observationTime < cutoff
    · have hstep := flushStep_pairCache now cutoff acc x
      rw [if_pos hp] at hstep
      refine ⟨?_, ?_, ?_, ?_⟩
      · rw [List.foldl_cons, (ih _).1, List.filter_cons_of_pos (by simpa using hp)]
        simp [hstep]
      · rw [List.foldl_cons, (ih _).2.1, flushStep_plugins]
      · rw [List.foldl_cons, (ih _).2.2.1, flushStep_lastProcessTime]
      · rw [List.foldl_cons, (ih _).2.2.2, flushStep_closed]
    · have hstep := flushStep_pairCache now cutoff acc x
      rw [if_neg hp] at hstep
      have hsame : flushStep now cutoff acc x = acc := by
        unfold flushStep
        rw [if_neg hp]
      rw [List.foldl_cons, hsame, List.filter_cons_of_neg (by simpa using hp)]
      exact ih acc

lemma flushFold_added (now cutoff : Int) (l : List (Nat × witnessWithInfo)) :
    ∀ acc : BackendCollector, pluginsId acc.plugins →
      (l.foldl (flushStep now cutoff) acc).uploadBatch.added =
        acc.uploadBatch.added ++
          ((l.filter fun ke => ke.2.observationTime < cutoff).map fun ke => obfEntry ke.2) := by
  induction l with
  | nil => intro acc _; simp
  | cons x l ih =>
    intro acc hid
    have hid2 : pluginsId (flushStep now cutoff acc x).plugins := by
      rw [flushStep_plugins]; exact hid
    by_cases hp : x.2.observationTime < cutoff
    · have hstep : (flushStep now cutoff acc x).uploadBatch.added =
          acc.uploadBatch.added ++ [obfEntry x.2] := by
        unfold flushStep
        rw [if_pos hp]
        simp [queueUpload_added_id acc now x.2 hid]
      rw [List.foldl_cons, ih _ hid2, hstep, List.filter_cons_of_pos (by simpa using hp)]
      simp
    · have hsame : flushStep now cutoff acc x = acc := by
        unfold flushStep
        rw [if_neg hp]
      rw [List.foldl_cons, hsame, List.filter_cons_of_neg (by simpa using hp)]
      exact ih acc hid

lemma eraseFold_filter (ks : List Nat) :
    ∀ m : List (Nat × witnessWithInfo),
      ks.foldl cacheErase m = m.filter fun ke => ke.1 ∉ ks := by
  induction ks with
  | nil => intro m; simp
  | cons k ks ih =>
    intro m
    rw [List.foldl_cons, ih]
    unfold cacheErase
    rw [List.filter_filter]
    apply List.filter_congr
    intro ke _
    by_cases h1 : ke.1 = k <;> by_cases h2 : ke.1 ∈ ks <;> simp [h1, h2]

lemma flushPairCache_pairCache (c : BackendCollector) (now cutoff : Int)
    (hnd : (c.pairCache.map Prod.fst).Nodup) :
    (flushPairCache c now cutoff).pairCache =
      c.pairCache.filter fun ke => cutoff ≤ ke.2.observationTime := by
  unfold flushPairCache
  rw [(flushFold_struct now cutoff c.pairCache c).1, eraseFold_filter]
  apply List.filter_congr
  intro ke hke
  by_cases hp : ke.2.observationTime < cutoff
  · have hmem : ke.1 ∈ (c.pairCache.filter fun ke => ke.2.observationTime < cutoff).map
        Prod.fst := by
      apply List.mem_map_of_mem
      exact List.mem_filter.mpr ⟨hke, by simpa using hp⟩
    simp [hmem, hp]
  · have hnmem : ke.1 ∉ (c.pairCache.filter fun ke => ke.2.observationTime < cutoff).map
        Prod.fst := by
      intro hmem
      rcases List.mem_map.mp hmem with ⟨ke2, hke2, hfst⟩
      have hke2' := List.mem_filter.mp hke2
      have : ke2 = ke := List.inj_on_of_nodup_map hnd hke2'.1 hke hfst
      rw [this] at hke2'
      exact hp (by simpa using hke2'.2)
    simp [hnmem]
    omega

lemma flushPairCache_added (c : BackendCollector) (now cutoff : Int)
    (hid : pluginsId c.plugins) :
    (flushPairCache c now cutoff).uploadBatch.added =
      c.uploadBatch.added ++
        ((c.pairCache.filter fun ke => ke.2.observationTime < cutoff).map
          fun ke => obfEntry ke.2) :=
  flushFold_added now cutoff c.pairCache c hid

lemma flushPairCache_all_erased (c : BackendCollector) (now cutoff : Int)
    (hall : ∀ ke ∈ c.pairCache, ke.2.observationTime < cutoff) :
    (flushPairCache c now cutoff).pairCache = [] := by
  unfold flushPairCache
  rw [(flushFold_struct now cutoff c.pairCache c).1, eraseFold_filter]
  rw [List.filter_eq_nil_iff]
  intro ke hke
  have hmem : ke.1 ∈ (c.pairCache.filter fun ke => ke.2.observationTime < cutoff).map
      Prod.fst := by
    apply List.mem_map_of_mem
    exact List.mem_filter.mpr ⟨hke, by simpa using hall ke hke⟩
  simp [hmem]

lemma processParsed_lastProcessTime (c : BackendCollector) (now : Int)
    (t : ParsedNetworkTraffic) (isReq : Bool) (parsed : Except String PartialWitness) :
    (processBody.processParsed c now t isReq parsed).lastProcessTime =
      c.lastProcessTime := by
  unfold processBody.processParsed
  cases parsed with
  | error e => rfl
  | ok pw =>
    cases h : cacheLookup c.pairCache pw.PairKey with
    | some pair => simp [h, queueUpload_lastProcessTime]
    | none => simp [h]

lemma processBody_lastProcessTime (c : BackendCollector) (now : Int)
    (t : ParsedNetworkTraffic) :
    (processBody c now t).lastProcessTime = c.lastProcessTime := by
  unfold processBody
  cases t.content <;> simp [processParsed_lastProcessTime]

lemma process_no_sweep (c : BackendCollector) (now : Int) (t : ParsedNetworkTraffic)
    (h : c.lastProcessTime = 0 ∨ now - c.lastProcessTime ≤ pairCacheCleanupInterval) :
    Process c now t = { processBody c now t with lastProcessTime := now } := by
  simp only [Process]
  rw [processBody_lastProcessTime]
  rw [if_neg]
  rintro ⟨h1, h2⟩
  rcases h with h0 | hle
  · exact h1 h0
  · omega

lemma process_sweep (c : BackendCollector) (now : Int) (t : ParsedNetworkTraffic)
    (h1 : c.lastProcessTime ≠ 0)
    (h2 : now - c.lastProcessTime > pairCacheCleanupInterval) :
    Process c now t =
      { flushPairCache (processBody c now t) now (now - pairCacheExpiration) with
          lastProcessTime := now } := by
  simp only [Process]
  rw [processBody_lastProcessTime]
  rw [if_pos ⟨h1, h2⟩]

/-- C10: the pair-cache sweep is lazy and call-triggered only: no sweep runs
when the last-process time is the zero time (the very first call), none runs
when no more than the 30-second cleanup interval has elapsed since the
previous call, a sweep (with the one-minute expiration cutoff) runs exactly
when both the last-process time is non-zero and more than the interval has
elapsed, and under the no-sweep conditions a non-HTTP call leaves the whole
collector untouched except for the recorded call time — so a stale entry
stays cached until a later sweeping call or `Close`. -/
theorem process_lazy_sweep (c : BackendCollector) (now : Int)
    (t : ParsedNetworkTraffic) :
    (c.lastProcessTime = 0 →
      Process c now t = { processBody c now t with lastProcessTime := now }) ∧
    (now - c.lastProcessTime ≤ pairCacheCleanupInterval →
      Process c now t = { processBody c now t with lastProcessTime := now }) ∧
    (c.lastProcessTime ≠ 0 → now - c.lastProcessTime > pairCacheCleanupInterval →
      Process c now t =
        { flushPairCache (processBody c now t) now (now - pairCacheExpiration) with
            lastProcessTime := now }) ∧
    (t.content = .other →
      (c.lastProcessTime = 0 ∨ now - c.lastProcessTime ≤ pairCacheCleanupInterval) →
      Process c now t = { c with lastProcessTime := now }) := by
  refine ⟨fun h => process_no_sweep c now t (Or.inl h),
    fun h => process_no_sweep c now t (Or.inr h),
    process_sweep c now t, ?_⟩
  intro hother h
  rw [process_no_sweep c now t h]
  have : processBody c now t = c := by
    unfold processBody
    rw [hother]
  rw [this]

/-- A first `Process` call on a fresh collector with unrecognized content only
records the call time, discharging the no-sweep hypotheses concretely. -/
theorem process_lazy_sweep_witness :
    Process (NewBackendCollector []) 5
        { SrcIP := 0, SrcPort := 0, DstIP := 0, DstPort := 0,
          ObservationTime := 0, content := .other } =
      { NewBackendCollector [] with lastProcessTime := 5 } :=
  (process_lazy_sweep (NewBackendCollector []) 5
    { SrcIP := 0, SrcPort := 0, DstIP := 0, DstPort := 0,
      ObservationTime := 0, content := .other }).2.2.2 rfl (Or.inl rfl)

lemma InMemory.close_added (b : InMemory) : b.Close.added = b.added := by
  have h : b.Close.added = b.flushImpl.added := rfl
  rw [h, InMemory.flushImpl_added]

lemma InMemory.close_queue (b : InMemory) : b.Close.queue = [] := by
  unfold InMemory.Close InMemory.flushImpl
  by_cases h : b.queue.isEmpty
  · simp [h, List.isEmpty_iff.mp h]
  · simp [h]

lemma InMemory.close_close (b : InMemory) : b.Close.Close = b.Close := by
  unfold InMemory.Close InMemory.flushImpl
  by_cases h : b.queue.isEmpty <;> simp [h]

lemma backend_close_pairCache (c : BackendCollector) (now : Int) :
    (c.Close now).pairCache = (flushPairCache c now now).pairCache := rfl

lemma backend_close_uploadBatch (c : BackendCollector) (now : Int) :
    (c.Close now).uploadBatch = (flushPairCache c now now).uploadBatch.Close := rfl

lemma backend_close_noop (d : BackendCollector) (now : Int)
    (h1 : d.pairCache = []) (h2 : d.uploadBatch.Close = d.uploadBatch) :
    d.Close now = d := by
  show { flushPairCache d now now with
          uploadBatch := (flushPairCache d now now).uploadBatch.Close } = d
  have hf : flushPairCache d now now = d := by
    unfold flushPairCache
    rw [h1]
    rfl
  rw [hf, h2]

/-- C2 (amended): at a sweep with a given cutoff, every cache entry observed
before the cutoff is emitted (obfuscated, incomplete) exactly once — the
emission log grows by exactly those entries, in order — and removed from the
pair cache, while every other entry is retained untouched, so no entry can
ever be emitted twice; `Close` does the same with the close time as cutoff,
so it emits exactly the still-cached entries observed before the close time,
each exactly once. -/
theorem pairCache_sweep_and_close_emit_once (c : BackendCollector)
    (now cutoff now2 : Int) (hid : pluginsId c.plugins)
    (hnd : (c.pairCache.map Prod.fst).Nodup) :
    (flushPairCache c now cutoff).uploadBatch.added =
      c.uploadBatch.added ++
        ((c.pairCache.filter fun ke => ke.2.observationTime < cutoff).map
          fun ke => obfEntry ke.2) ∧
    (flushPairCache c now cutoff).pairCache =
      (c.pairCache.filter fun ke => cutoff ≤ ke.2.observationTime) ∧
    (c.Close now2).uploadBatch.added =
      c.uploadBatch.added ++
        ((c.pairCache.filter fun ke => ke.2.observationTime < now2).map
          fun ke => obfEntry ke.2) ∧
    (c.Close now2).pairCache =
      (c.pairCache.filter fun ke => now2 ≤ ke.2.observationTime) := by
  refine ⟨flushPairCache_added c now cutoff hid,
    flushPairCache_pairCache c now cutoff hnd, ?_, ?_⟩
  · rw [backend_close_uploadBatch, InMemory.close_added]
    exact flushPairCache_added c now2 now2 hid
  · rw [backend_close_pairCache]
    exact flushPairCache_pairCache c now2 now2 hnd

/-- The stale cache entry used in the sweep/close witness. -/
def entryOld : witnessWithInfo :=
  { srcIP := 1, srcPort := 2, dstIP := 3, dstPort := 4, observationTime := 10,
    id := 7, witness := { req := none, resp := some 5 } }

/-- The fresh cache entry used in the sweep/close witness. -/
def entryFresh : witnessWithInfo :=
  { srcIP := 5, srcPort := 6, dstIP := 7, dstPort := 8, observationTime := 100,
    id := 8, witness := { req := some 9, resp := none } }

/-- A collector holding one stale and one fresh unpaired entry. -/
def twoEntryCollector : BackendCollector :=
  { NewBackendCollector [] with pairCache := [(7, entryOld), (8, entryFresh)] }

/-- A concrete sweep discharging the hypotheses of the sweep/close theorem:
with cutoff 50 the stale entry is emitted exactly once and removed and the
fresh entry is kept. -/
theorem pairCache_sweep_and_close_emit_once_witness :
    (flushPairCache twoEntryCollector 110 50).uploadBatch.added =
      [obfEntry entryOld] ∧
    (flushPairCache twoEntryCollector 110 50).pairCache = [(8, entryFresh)] := by
  have h := pairCache_sweep_and_close_emit_once twoEntryCollector 110 50 0
    (fun w => rfl) (by decide)
  refine ⟨?_, ?_⟩
  · rw [h.1]; decide
  · rw [h.2.1]; decide

/-- The future-stamped cache entry of the counterexamples: its observation
time (10) is at or after the close time (5). -/
def entryFuture : witnessWithInfo :=
  { srcIP := 1, srcPort := 2, dstIP := 3, dstPort := 4, observationTime := 10,
    id := 7, witness := { req := none, resp := some 5 } }

/-- A collector holding a single future-stamped unpaired entry. -/
def futureCollector : BackendCollector :=
  { NewBackendCollector [] with pairCache := [(7, entryFuture)] }

/-- C2 counterexample: `Close` does not emit every still-cached entry.  At
close time 5 an entry with observation time 10 is still cached, yet nothing
is emitted (the emission log stays empty) and the entry survives the close in
the pair cache. -/
theorem close_misses_future_entry_cex :
    (futureCollector.Close 5).uploadBatch.added = [] ∧
    (futureCollector.Close 5).pairCache = [(7, entryFuture)] := by
  constructor
  · rw [backend_close_uploadBatch, InMemory.close_added]
    rw [flushPairCache_added futureCollector 5 5 (fun w => rfl)]
    decide
  · rw [backend_close_pairCache,
      flushPairCache_pairCache futureCollector 5 5 (by decide)]
    decide

/-- C9 (amended): when every cached entry was observed before the first
`Close`, the first `Close` empties the pair cache and the batch queue, and a
second `Close` is a no-op — the collector state, and in particular the
emission log, is exactly unchanged, so nothing new ships. -/
theorem close_idempotent_when_entries_past (c : BackendCollector)
    (now1 now2 : Int)
    (hall : ∀ ke ∈ c.pairCache, ke.2.observationTime < now1) :
    (c.Close now1).pairCache = [] ∧
    (c.Close now1).uploadBatch.queue = [] ∧
    (c.Close now1).Close now2 = c.Close now1 := by
  have hpc : (c.Close now1).pairCache = [] := by
    rw [backend_close_pairCache]
    exact flushPairCache_all_erased c now1 now1 hall
  have hq : (c.Close now1).uploadBatch.queue = [] := by
    rw [backend_close_uploadBatch]
    exact InMemory.close_queue _
  refine ⟨hpc, hq, ?_⟩
  apply backend_close_noop _ now2 hpc
  rw [backend_close_uploadBatch]
  exact InMemory.close_close _

/-- A concrete double close discharging the hypotheses of the idempotence
theorem: with the cached entry observed before the first close, the second
close changes nothing. -/
theorem close_idempotent_when_entries_past_witness :
    (twoEntryCollector.Close 200).Close 300 = twoEntryCollector.Close 200 :=
  (close_idempotent_when_entries_past twoEntryCollector 200 300
    (by decide)).2.2

/-- C9 counterexample: `Close` is not idempotent as stated.  With a cached
entry whose observation time (10) is at or after the first close time (5),
the first `Close` leaves a non-empty pair cache, and a second `Close` at time
100 ships something new: the emission log grows. -/
theorem close_not_idempotent_cex :
    (futureCollector.Close 5).pairCache ≠ [] ∧
    ((futureCollector.Close 5).Close 100).uploadBatch.added ≠
      (futureCollector.Close 5).uploadBatch.added := by
  have h5 : (futureCollector.Close 5).pairCache = [(7, entryFuture)] := by
    rw [backend_close_pairCache,
      flushPairCache_pairCache futureCollector 5 5 (by decide)]
    decide
  constructor
  · rw [h5]; simp
  · have hadded5 : (futureCollector.Close 5).uploadBatch.added = [] := by
      rw [backend_close_uploadBatch, InMemory.close_added,
        flushPairCache_added futureCollector 5 5 (fun w => rfl)]
      decide
    have hplug : pluginsId (futureCollector.Close 5).plugins := by
      intro w
      rfl
    have hnd : (((futureCollector.Close 5).pairCache).map Prod.fst).Nodup := by
      rw [h5]; decide
    have h100 : ((futureCollector.Close 5).Close 100).uploadBatch.added =
        (futureCollector.Close 5).uploadBatch.added ++
          (((futureCollector.Close 5).pairCache.filter
              fun ke => ke.2.observationTime < 100).map fun ke => obfEntry ke.2) := by
      rw [backend_close_uploadBatch, InMemory.close_added]
      exact flushPairCache_added _ 100 100 hplug
    rw [h100, hadded5, h5]
    decide

lemma cacheLookup_insert :
    ∀ (m : List (Nat × witnessWithInfo)) (k : Nat) (e : witnessWithInfo),
      cacheLookup m k = none → cacheLookup (cacheInsert m k e) k = some e
  | [], k, e, _ => by simp [cacheInsert, cacheLookup]
  | (k1, e1) :: m, k, e, h => by
    unfold cacheLookup at h
    by_cases hk : k1 = k
    · simp [hk] at h
    · have h' : cacheLookup m k = none := by simpa [hk] using h
      show cacheLookup ((k1, e1) :: (m ++ [(k, e)])) k = some e
      unfold cacheLookup
      simpa [hk] using cacheLookup_insert m k e h'

lemma cacheLookup_erase (m : List (Nat × witnessWithInfo)) (k : Nat) :
    cacheLookup (cacheErase m k) k = none := by
  induction m with
  | nil => rfl
  | cons x m ih =>
    unfold cacheErase at ih ⊢
    by_cases hk : x.1 = k
    · simpa [hk] using ih
    · rw [List.filter_cons_of_pos (by simpa using hk)]
      cases x with
      | mk k1 e1 =>
        unfold cacheLookup
        simpa [hk] using ih

lemma processBody_req (c : BackendCollector) (now : Int) (t : ParsedNetworkTraffic)
    (pr : Except String PartialWitness) (h : t.content = .httpRequest pr) :
    processBody c now t = processBody.processParsed c now t true pr := by
  unfold processBody
  rw [h]

lemma processBody_resp (c : BackendCollector) (now : Int) (t : ParsedNetworkTraffic)
    (pr : Except String PartialWitness) (h : t.content = .httpResponse pr) :
    processBody c now t = processBody.processParsed c now t false pr := by
  unfold processBody
  rw [h]

lemma processParsed_miss (c : BackendCollector) (now : Int)
    (t : ParsedNetworkTraffic) (isReq : Bool) (kp : Nat) (w : Witness)
    (hmiss : cacheLookup c.pairCache kp = none) :
    processBody.processParsed c now t isReq (.ok { PairKey := kp, witness := w }) =
      { c with pairCache := cacheInsert c.pairCache kp { srcIP := t.SrcIP, srcPort := t.SrcPort % 65536, dstIP := t.DstIP, dstPort := t.DstPort % 65536, observationTime := t.ObservationTime, id := kp, witness := w } } := by
  unfold processBody.processParsed
  simp [hmiss]

lemma processParsed_hit_resp (c : BackendCollector) (now : Int)
    (t : ParsedNetworkTraffic) (kp : Nat) (w : Witness) (pair : witnessWithInfo)
    (hhit : cacheLookup c.pairCache kp = some pair) :
    processBody.processParsed c now t false (.ok { PairKey := kp, witness := w }) =
      queueUpload { c with pairCache := cacheErase c.pairCache kp } now { pair with witness := MergeWitness pair.witness w } := by
  unfold processBody.processParsed
  simp [hhit]

lemma processParsed_hit_req (c : BackendCollector) (now : Int)
    (t : ParsedNetworkTraffic) (kp : Nat) (w : Witness) (pair : witnessWithInfo)
    (hhit : cacheLookup c.pairCache kp = some pair) :
    processBody.processParsed c now t true (.ok { PairKey := kp, witness := w }) =
      queueUpload { c with pairCache := cacheErase c.pairCache kp } now { pair with witness := MergeWitness pair.witness w, srcIP := pair.dstIP, dstIP := pair.srcIP, srcPort := pair.dstPort, dstPort := pair.srcPort } := by
  unfold processBody.processParsed
  simp [hhit]

lemma queueUpload_added_mk (pc : List (Nat × witnessWithInfo)) (ub : InMemory)
    (lt : Int) (ps : List AkitaPlugin) (now : Int) (w : witnessWithInfo)
    (hid : pluginsId ps) :
    (queueUpload { pairCache := pc, uploadBatch := ub, lastProcessTime := lt, plugins := ps } now w).uploadBatch.added = ub.added ++ [obfEntry w] :=
  queueUpload_added_id _ now w hid

/-- C1: two fragments sharing a pairing key, in either arrival order, produce
exactly one completed exchange: the second arrival merges both sides into the
cached record, the cache entry is removed, and the emitted exchange's origin
address and port equal the request fragment's source address and port — the
recorded addressing is swapped exactly when the newly arrived side is the
request (the hypotheses relate the response frame's addressing to the request
frame's as the two directions of one connection). -/
theorem pairing_exactly_once (c : BackendCollector) (now1 now2 : Int) (kp : Nat)
    (wq wr : Witness) (tReq tResp : ParsedNetworkTraffic)
    (hreq : tReq.content = .httpRequest (.ok { PairKey := kp, witness := wq }))
    (hresp : tResp.content = .httpResponse (.ok { PairKey := kp, witness := wr }))
    (hmiss : cacheLookup c.pairCache kp = none)
    (hid : pluginsId c.plugins)
    (hzero : c.lastProcessTime = 0)
    (hgap : now2 - now1 ≤ pairCacheCleanupInterval)
    (hpS : tReq.SrcPort < 65536) (hpD : tReq.DstPort < 65536)
    (hm1 : tResp.SrcIP = tReq.DstIP) (hm2 : tResp.DstIP = tReq.SrcIP)
    (hm3 : tResp.SrcPort % 65536 = tReq.DstPort % 65536)
    (hm4 : tResp.DstPort % 65536 = tReq.SrcPort % 65536) :
    ((Process (Process c now1 tReq) now2 tResp).uploadBatch.added =
      c.uploadBatch.added ++ [{ srcIP := tReq.SrcIP, srcPort := tReq.SrcPort, dstIP := tReq.DstIP, dstPort := tReq.DstPort, observationTime := tReq.ObservationTime, id := kp, witness := obfuscate (MergeWitness wq wr) }] ∧
     cacheLookup (Process (Process c now1 tReq) now2 tResp).pairCache kp = none) ∧
    ((Process (Process c now1 tResp) now2 tReq).uploadBatch.added =
      c.uploadBatch.added ++ [{ srcIP := tReq.SrcIP, srcPort := tReq.SrcPort, dstIP := tReq.DstIP, dstPort := tReq.DstPort, observationTime := tResp.ObservationTime, id := kp, witness := obfuscate (MergeWitness wr wq) }] ∧
     cacheLookup (Process (Process c now1 tResp) now2 tReq).pairCache kp = none) := by
  have hmodS : tReq.SrcPort % 65536 = tReq.SrcPort := Nat.mod_eq_of_lt hpS
  have hmodD : tReq.DstPort % 65536 = tReq.DstPort := Nat.mod_eq_of_lt hpD
  constructor
  -- Order A: request first, response second.
  · have hb1 : processBody c now1 tReq =
        { c with pairCache := cacheInsert c.pairCache kp { srcIP := tReq.SrcIP, srcPort := tReq.SrcPort % 65536, dstIP := tReq.DstIP, dstPort := tReq.DstPort % 65536, observationTime := tReq.ObservationTime, id := kp, witness := wq } } := by
      rw [processBody_req c now1 tReq _ hreq]
      exact processParsed_miss c now1 tReq true kp wq hmiss
    have hP1 : Process c now1 tReq =
        { c with pairCache := cacheInsert c.pairCache kp { srcIP := tReq.SrcIP, srcPort := tReq.SrcPort % 65536, dstIP := tReq.DstIP, dstPort := tReq.DstPort % 65536, observationTime := tReq.ObservationTime, id := kp, witness := wq }, lastProcessTime := now1 } := by
      rw [process_no_sweep c now1 tReq (Or.inl hzero), hb1]
    rw [hP1]
    have hlook : cacheLookup (cacheInsert c.pairCache kp { srcIP := tReq.SrcIP, srcPort := tReq.SrcPort % 65536, dstIP := tReq.DstIP, dstPort := tReq.DstPort % 65536, observationTime := tReq.ObservationTime, id := kp, witness := wq }) kp = some { srcIP := tReq.SrcIP, srcPort := tReq.SrcPort % 65536, dstIP := tReq.DstIP, dstPort := tReq.DstPort % 65536, observationTime := tReq.ObservationTime, id := kp, witness := wq } :=
      cacheLookup_insert c.pairCache kp _ hmiss
    have hP2 : Process { c with pairCache := cacheInsert c.pairCache kp { srcIP := tReq.SrcIP, srcPort := tReq.SrcPort % 65536, dstIP := tReq.DstIP, dstPort := tReq.DstPort % 65536, observationTime := tReq.ObservationTime, id := kp, witness := wq }, lastProcessTime := now1 } now2 tResp =
        { queueUpload { c with pairCache := cacheErase (cacheInsert c.pairCache kp { srcIP := tReq.SrcIP, srcPort := tReq.SrcPort % 65536, dstIP := tReq.DstIP, dstPort := tReq.DstPort % 65536, observationTime := tReq.ObservationTime, id := kp, witness := wq }) kp, lastProcessTime := now1 } now2 { srcIP := tReq.SrcIP, srcPort := tReq.SrcPort % 65536, dstIP := tReq.DstIP, dstPort := tReq.DstPort % 65536, observationTime := tReq.ObservationTime, id := kp, witness := MergeWitness wq wr } with lastProcessTime := now2 } := by
      rw [process_no_sweep _ now2 tResp (Or.inr hgap)]
      rw [processBody_resp _ now2 tResp _ hresp]
      rw [processParsed_hit_resp _ now2 tResp kp wr _ hlook]
    rw [hP2]
    dsimp only
    constructor
    · rw [queueUpload_added_mk _ _ _ _ now2 _ hid]
      simp only [obfEntry, hmodS, hmodD]
    · rw [queueUpload_pairCache]
      exact cacheLookup_erase _ kp
  -- Order B: response first, request second.
  · have hb1 : processBody c now1 tResp =
        { c with pairCache := cacheInsert c.pairCache kp { srcIP := tResp.SrcIP, srcPort := tResp.SrcPort % 65536, dstIP := tResp.DstIP, dstPort := tResp.DstPort % 65536, observationTime := tResp.ObservationTime, id := kp, witness := wr } } := by
      rw [processBody_resp c now1 tResp _ hresp]
      exact processParsed_miss c now1 tResp false kp wr hmiss
    have hP1 : Process c now1 tResp =
        { c with pairCache := cacheInsert c.pairCache kp { srcIP := tResp.SrcIP, srcPort := tResp.SrcPort % 65536, dstIP := tResp.DstIP, dstPort := tResp.DstPort % 65536, observationTime := tResp.ObservationTime, id := kp, witness := wr }, lastProcessTime := now1 } := by
      rw [process_no_sweep c now1 tResp (Or.inl hzero), hb1]
    rw [hP1]
    have hlook : cacheLookup (cacheInsert c.pairCache kp { srcIP := tResp.SrcIP, srcPort := tResp.SrcPort % 65536, dstIP := tResp.DstIP, dstPort := tResp.DstPort % 65536, observationTime := tResp.ObservationTime, id := kp, witness := wr }) kp = some { srcIP := tResp.SrcIP, srcPort := tResp.SrcPort % 65536, dstIP := tResp.DstIP, dstPort := tResp.DstPort % 65536, observationTime := tResp.ObservationTime, id := kp, witness := wr } :=
      cacheLookup_insert c.pairCache kp _ hmiss
    have hP2 : Process { c with pairCache := cacheInsert c.pairCache kp { srcIP := tResp.SrcIP, srcPort := tResp.SrcPort % 65536, dstIP := tResp.DstIP, dstPort := tResp.DstPort % 65536, observationTime := tResp.ObservationTime, id := kp, witness := wr }, lastProcessTime := now1 } now2 tReq =
        { queueUpload { c with pairCache := cacheErase (cacheInsert c.pairCache kp { srcIP := tResp.SrcIP, srcPort := tResp.SrcPort % 65536, dstIP := tResp.DstIP, dstPort := tResp.DstPort % 65536, observationTime := tResp.ObservationTime, id := kp, witness := wr }) kp, lastProcessTime := now1 } now2 { srcIP := tResp.DstIP, srcPort := tResp.DstPort % 65536, dstIP := tResp.SrcIP, dstPort := tResp.SrcPort % 65536, observationTime := tResp.ObservationTime, id := kp, witness := MergeWitness wr wq } with lastProcessTime := now2 } := by
      rw [process_no_sweep _ now2 tReq (Or.inr hgap)]
      rw [processBody_req _ now2 tReq _ hreq]
      rw [processParsed_hit_req _ now2 tReq kp wq _ hlook]
    rw [hP2]
    dsimp only
    constructor
    · rw [queueUpload_added_mk _ _ _ _ now2 _ hid]
      simp only [obfEntry, hm1, hm2, hm3, hm4, hmodS, hmodD]
    · rw [queueUpload_pairCache]
      exact cacheLookup_erase _ kp

/-- The request frame of the pairing witness scenario. -/
def wTReq : ParsedNetworkTraffic :=
  { SrcIP := 10, SrcPort := 20, DstIP := 30, DstPort := 40, ObservationTime := 0,
    content := .httpRequest (.ok { PairKey := 5, witness := { req := some 1, resp := none } }) }

/-- The response frame of the pairing witness scenario (the reverse flow of
the request frame). -/
def wTResp : ParsedNetworkTraffic :=
  { SrcIP := 30, SrcPort := 40, DstIP := 10, DstPort := 20, ObservationTime := 1,
    content := .httpResponse (.ok { PairKey := 5, witness := { req := none, resp := some 2 } }) }

/-- One concrete request/response pair through a fresh collector, discharging
the hypotheses of the pairing theorem: exactly one exchange is emitted and its
origin is the request's source address and port. -/
theorem pairing_exactly_once_witness :
    (Process (Process (NewBackendCollector []) 1 wTReq) 2 wTResp).uploadBatch.added =
      [{ srcIP := 10, srcPort := 20, dstIP := 30, dstPort := 40, observationTime := 0, id := 5, witness := obfuscate (MergeWitness { req := some 1, resp := none } { req := none, resp := some 2 }) }] := by
  have h := (pairing_exactly_once (NewBackendCollector []) 1 2 5
    { req := some 1, resp := none } { req := none, resp := some 2 } wTReq wTResp
    rfl rfl rfl (fun w => rfl) rfl (by decide) (by decide) (by decide)
    rfl rfl (by decide) (by decide)).1.1
  simpa [wTReq, wTResp, NewBackendCollector, InMemory.added] using h

/-- The conversion-error messages of one optional HAR side: one message when
the side is present and failed to convert, none otherwise. -/
def sideErr : Option (Except String TrafficContent) → List String
  | some (.error e) => [e]
  | _ => []

/-- All conversion-error messages of one HAR entry (request side first). -/
def entryErrs (entry : CustomHAREntry) : List String :=
  sideErr entry.request ++ sideErr entry.response

/-- An entry is fully successful when all its present sides converted. -/
def entryOk (entry : CustomHAREntry) : Bool :=
  (entryErrs entry).isEmpty

lemma sampledErrors_add_take (msgs : List String) (m : String) :
    SampledErrors.Add
        { SampleCount := 3, Samples := msgs.take 3, TotalCount := msgs.length } m =
      { SampleCount := 3, Samples := (msgs ++ [m]).take 3,
        TotalCount := (msgs ++ [m]).length } := by
  unfold SampledErrors.Add
  by_cases h : msgs.length < 3
  · have h1 : msgs.take 3 = msgs := List.take_of_length_le (by omega)
    have h2 : (msgs ++ [m]).take 3 = msgs ++ [m] :=
      List.take_of_length_le (by simp; omega)
    simp [h1, h2, h]
  · have h5 : 3 ≤ msgs.length := by omega
    have h3 : ¬ (msgs.take 3).length < 3 := by
      simp [List.length_take]
      omega
    have h4 : (msgs ++ [m]).take 3 = msgs.take 3 :=
      List.take_append_of_le_length h5
    simp [h3, h4]
    omega

lemma sampledErrors_foldl (more : List String) :
    ∀ msgs : List String,
      more.foldl SampledErrors.Add
          { SampleCount := 3, Samples := msgs.take 3, TotalCount := msgs.length } =
        { SampleCount := 3, Samples := (msgs ++ more).take 3,
          TotalCount := (msgs ++ more).length } := by
  induction more with
  | nil => intro msgs; simp
  | cons m more ih =>
    intro msgs
    rw [List.foldl_cons, sampledErrors_add_take]
    have h := ih (msgs ++ [m])
    simpa [List.append_assoc] using h

lemma processHAREntry_snd (now : Int) (st : BackendCollector × Nat × SampledErrors)
    (entry : CustomHAREntry) :
    (processHAREntry now st entry).2.1 =
      st.2.1 + (if entryOk entry then 1 else 0) ∧
    (processHAREntry now st entry).2.2 =
      (entryErrs entry).foldl SampledErrors.Add st.2.2 := by
  obtain ⟨req, resp, t⟩ := entry
  rcases req with _ | req
  · rcases resp with _ | resp
    · simp [processHAREntry, entryOk, entryErrs, sideErr]
    · rcases resp with e2 | c2 <;>
        simp [processHAREntry, entryOk, entryErrs, sideErr]
  · rcases req with e1 | c1
    · rcases resp with _ | resp
      · simp [processHAREntry, entryOk, entryErrs, sideErr]
      · rcases resp with e2 | c2 <;>
          simp [processHAREntry, entryOk, entryErrs, sideErr]
    · rcases resp with _ | resp
      · simp [processHAREntry, entryOk, entryErrs, sideErr]
      · rcases resp with e2 | c2 <;>
          simp [processHAREntry, entryOk, entryErrs, sideErr]

lemma parseHAR_fold (now : Int) (entries : List CustomHAREntry) :
    ∀ (col : BackendCollector) (k : Nat) (errs : SampledErrors),
      ((entries.foldl (processHAREntry now) (col, k, errs)).2.1 =
        k + entries.countP entryOk) ∧
      ((entries.foldl (processHAREntry now) (col, k, errs)).2.2 =
        (entries.flatMap entryErrs).foldl SampledErrors.Add errs) := by
  induction entries with
  | nil => intro col k errs; simp
  | cons e es ih =>
    intro col k errs
    have hstep := processHAREntry_snd now (col, k, errs) e
    have h1 := ih (processHAREntry now (col, k, errs) e).1
      (processHAREntry now (col, k, errs) e).2.1
      (processHAREntry now (col, k, errs) e).2.2
    constructor
    · have h2 : (es.foldl (processHAREntry now)
          (processHAREntry now (col, k, errs) e)).2.1 =
          (processHAREntry now (col, k, errs) e).2.1 + es.countP entryOk := h1.1
      rw [List.foldl_cons, h2, hstep.1, List.countP_cons]
      cases entryOk e
      · simp
      · simp
        omega
    · have h2 : (es.foldl (processHAREntry now)
          (processHAREntry now (col, k, errs) e)).2.2 =
          (es.flatMap entryErrs).foldl SampledErrors.Add
            (processHAREntry now (col, k, errs) e).2.2 := h1.2
      rw [List.foldl_cons, h2, hstep.2, List.flatMap_cons, List.foldl_append]

/-- A HAR entry whose request and response sides both converted, pairing
under key `i`. -/
def harGoodEntry (i : Nat) : CustomHAREntry :=
  { request := some (.ok (.httpRequest (.ok { PairKey := i, witness := { req := some i, resp := none } })))
    response := some (.ok (.httpResponse (.ok { PairKey := i, witness := { req := none, resp := some i } })))
    startedDateTime := 0 }

/-- A HAR entry with a malformed response side. -/
def harBadEntry (i : Nat) : CustomHAREntry :=
  { request := some (.ok (.httpRequest (.ok { PairKey := i, witness := { req := some i, resp := none } })))
    response := some (.error "malformed response")
    startedDateTime := 0 }

/-- An archive of 10 entries of which 3 have a malformed response. -/
def har10 : List CustomHAREntry :=
  [harGoodEntry 0, harGoodEntry 1, harGoodEntry 2, harGoodEntry 3, harGoodEntry 4,
   harGoodEntry 5, harGoodEntry 6, harBadEntry 7, harBadEntry 8, harBadEntry 9]

/-- C6: for every archive, the replay adapter reports the number of entries
whose present sides all converted, a total error count equal to the number of
failed sides, and a bounded sample holding the first (at most 3) error
messages, never aborting on a bad entry; in particular the 10-entry archive
with 3 malformed responses reports 7 successful entries, a total error count
of 3 and at most 3 sample messages. -/
theorem parseFromHAR_reports (col : BackendCollector) (now : Int)
    (entries : List CustomHAREntry) :
    (parseFromHAR col now entries).1 = entries.countP entryOk ∧
    (parseFromHAR col now entries).2.1.TotalCount =
      (entries.flatMap entryErrs).length ∧
    (parseFromHAR col now entries).2.1.Samples =
      (entries.flatMap entryErrs).take 3 ∧
    (parseFromHAR col now entries).2.1.Samples.length ≤ 3 ∧
    (parseFromHAR (NewBackendCollector []) 0 har10).1 = 7 ∧
    (parseFromHAR (NewBackendCollector []) 0 har10).2.1.TotalCount = 3 ∧
    (parseFromHAR (NewBackendCollector []) 0 har10).2.1.Samples.length ≤ 3 := by
  have hfold := parseHAR_fold now entries col 0
    { SampleCount := 3, Samples := [], TotalCount := 0 }
  have hinit : ({ SampleCount := 3, Samples := [], TotalCount := 0 } : SampledErrors) =
      { SampleCount := 3, Samples := List.take 3 [], TotalCount := List.length ([] : List String) } := rfl
  have herrs : (parseFromHAR col now entries).2.1 =
      { SampleCount := 3, Samples := (entries.flatMap entryErrs).take 3,
        TotalCount := (entries.flatMap entryErrs).length } := by
    show (entries.foldl (processHAREntry now)
      (col, 0, { SampleCount := 3, Samples := [], TotalCount := 0 })).2.2 = _
    rw [hfold.2, hinit, sampledErrors_foldl]
    simp
  have hcount : (parseFromHAR col now entries).1 = entries.countP entryOk := by
    show (entries.foldl (processHAREntry now)
      (col, 0, { SampleCount := 3, Samples := [], TotalCount := 0 })).2.1 = _
    rw [hfold.1]
    simp
  refine ⟨hcount, by rw [herrs], by rw [herrs], ?_, by decide, by decide, by decide⟩
  rw [herrs]
  simp [List.length_take]
